import Mathlib

/-!
# controldata.c: reading a PostgreSQL control file across server versions

A shallow embedding of `src/controldata.c`.

* The data directory is an explicit input (`DataDir`): the content of
  `PG_VERSION` (or the fact that it cannot be opened) and, for
  `global/pg_control`, the outcome of `open` and of the single `read`.
* `get_controlfile` returns the `ControlFileInfo` it builds together with the
  list of file operations and warnings it performed, in program order.
* C integers are `Int`/`Nat` with explicit wrap-around to 32 bits.
* The struct declarations `ControlFileData93/94/95` live in `controldata.h`,
  which is not part of the sources at hand; their sizes and the offsets of the
  four fields that are read are taken as a parameter (`Platform`).
-/

namespace ControlData

/-! ## Machine integers -/

/-- Conversion to C `int`: the 32-bit two's-complement reading of an integer. -/
def to_int32 (x : Int) : Int := (x + 2147483648) % 4294967296 - 2147483648

/-- Conversion to `uint32`. -/
def to_uint32 (x : Int) : Nat := (x % 4294967296).toNat

/-- Multiplication of two `int` values, wrapping to 32 bits. -/
def int_mul (a b : Int) : Int := to_int32 (a * b)

/-- Addition of two `int` values, wrapping to 32 bits. -/
def int_add (a b : Int) : Int := to_int32 (a + b)

/-! ## Types and constants of the headers -/

/-- Modelled from the spec: the enumeration `DBState` of `pg_control.h` (not under
src/), carried as the integer code of the enumerator. -/
abbrev DBState := Int

/-- Modelled from the spec: first of the seven `DBState` enumerators, numbered from 0
in the order the spec lists them. -/
def DB_STARTUP : DBState := 0
/-- Modelled from the spec: second `DBState` enumerator. -/
def DB_SHUTDOWNED : DBState := 1
/-- Modelled from the spec: third `DBState` enumerator. -/
def DB_SHUTDOWNED_IN_RECOVERY : DBState := 2
/-- Modelled from the spec: fourth `DBState` enumerator. -/
def DB_SHUTDOWNING : DBState := 3
/-- Modelled from the spec: fifth `DBState` enumerator. -/
def DB_IN_CRASH_RECOVERY : DBState := 4
/-- Modelled from the spec: sixth `DBState` enumerator. -/
def DB_IN_ARCHIVE_RECOVERY : DBState := 5
/-- Modelled from the spec: seventh `DBState` enumerator. -/
def DB_IN_PRODUCTION : DBState := 6

/-- Modelled from the spec: the sentinel `UNKNOWN_SYSTEM_IDENTIFIER` of `repmgr.h`
(not under src/), value 0. -/
def UNKNOWN_SYSTEM_IDENTIFIER : Nat := 0

/-- Modelled from the spec: the `invalid` log-address sentinel `InvalidXLogRecPtr` of
the PostgreSQL headers (not under src/), the zero address. -/
def InvalidXLogRecPtr : Nat := 0

/-- The struct `ControlFileInfo` of `controldata.h`, restricted to the five members
`controldata.c` touches. `system_identifier` and `checkPoint` are 64-bit unsigned
values; `data_checksum_version` holds the 32-bit pattern of the member, whose `int`
reading is `to_int32`. -/
structure ControlFileInfo where
  control_file_processed : Bool
  system_identifier : Nat
  state : DBState
  checkPoint : Nat
  data_checksum_version : Nat
deriving DecidableEq, Repr

/-- Size of one of the `ControlFileDataNN` structs and the offsets of the four members
that are read from it. -/
structure Layout where
  size : Nat
  system_identifier : Nat
  state : Nat
  checkPoint : Nat
  data_checksum_version : Nat
deriving DecidableEq, Repr

/-- What the build fixes and the sources at hand do not show: the three struct layouts,
the byte order, and whether `long` has 64 bits (otherwise 32). -/
structure Platform where
  ControlFileData93 : Layout
  ControlFileData94 : Layout
  ControlFileData95 : Layout
  big_endian : Bool
  long_is_64 : Bool
deriving DecidableEq, Repr

/-- The constant `LONG_MAX` of the platform. -/
def LONG_MAX (p : Platform) : Nat :=
  if p.long_is_64 then 9223372036854775807 else 2147483647

/-! ## The data directory and the trace of a call -/

/-- Outcome of one `read(2)` call: failure (`-1`), or the bytes delivered. -/
inductive ReadResult where
  | failed
  | got (bytes : List Nat)
deriving DecidableEq, Repr

/-- The two files of a data directory as one call sees them. `pg_version` is `none`
when `fopen` fails, else the characters of the file. `pg_control` is `none` when
`open` fails, else the outcome of a `read` as a function of the requested count. -/
structure DataDir where
  pg_version : Option (List Char)
  pg_control : Option (Nat → ReadResult)

/-- The five warnings `get_controlfile` can log, by source line. -/
inductive Warning where
  | could_not_open_pg_version
  | unable_to_determine_major_version
  | appears_to_be_initialised_for (file_version_string : List Char)
  | could_not_open_pg_control
  | could_not_read_pg_control
deriving DecidableEq, Repr

/-- File operations and warnings, recorded in program order. -/
inductive Event where
  | fopen_pg_version (ok : Bool)
  | fclose_pg_version
  | open_pg_control (ok : Bool)
  | read_pg_control (count : Nat)
  | close_pg_control
  | log_warning (w : Warning)
deriving DecidableEq, Repr

/-- Result of a call: the returned struct and the trace. -/
structure Run where
  result : ControlFileInfo
  events : List Event
deriving DecidableEq, Repr

/-! ## Library functions -/

/-- The predicate `isspace` in the C locale: space, and the five controls 9 to 13. -/
def isspace (c : Char) : Bool := c.toNat = 32 || (9 ≤ c.toNat && c.toNat ≤ 13)

/-- The predicate `isdigit`. -/
def isdigit (c : Char) : Bool := 48 ≤ c.toNat && c.toNat ≤ 57

/-- A character array read as a C string: it ends before the first NUL. -/
def c_string (buf : List Char) : List Char := buf.takeWhile (fun c => c.toNat ≠ 0)

/-- The call `fscanf(fp, "%63s", buf)` on a stream with the given content: skips
white space, then stores at most 63 characters up to the next white space. Returns
the count of conversions (`1`, or `EOF = -1` when the input ends first) and the
string left in `buf`, which starts out empty. -/
def fscanf_s63 (content : List Char) : Int × List Char :=
  let rest := content.dropWhile isspace
  let tok := (rest.takeWhile (fun c => !isspace c)).take 63
  if tok = [] then (-1, []) else (1, c_string tok)

/-- Magnitude of a run of decimal digits. -/
def digits_value (ds : List Char) : Nat :=
  ds.foldl (fun acc c => 10 * acc + (c.toNat - 48)) 0

/-- The call `strtol(s, &endptr, 10)`: skips white space, takes an optional sign and
the longest run of digits, and clamps to the range of `long`. Returns the value and
`endptr` as an offset into `s`; with no digits the value is 0 and `endptr` is `s`. -/
def strtol (p : Platform) (s : List Char) : Int × Nat :=
  let ws := s.takeWhile isspace
  let s1 := s.dropWhile isspace
  let neg := s1.head? = some '-'
  let signed := s1.head? = some '-' || s1.head? = some '+'
  let s2 := if signed then s1.drop 1 else s1
  let ds := s2.takeWhile isdigit
  if ds = [] then (0, 0)
  else
    let mag := digits_value ds
    let value : Int :=
      if neg then (if mag > LONG_MAX p + 1 then -((LONG_MAX p : Int) + 1) else -(mag : Int))
      else (if mag > LONG_MAX p then (LONG_MAX p : Int) else (mag : Int))
    (value, ws.length + (if signed then 1 else 0) + ds.length)

/-- The call `read(fd, buf, count)` on the control file: returns `-1` and leaves the
buffer alone on failure, else stores the bytes delivered (never more than `count`)
at the start of the buffer and returns how many. A byte is a number that is read
modulo 256 (see `le_value`). -/
def read (rd : Nat → ReadResult) (buf : List Nat) (count : Nat) : Int × List Nat :=
  match rd count with
  | .failed => (-1, buf)
  | .got bytes =>
    let bs := bytes.take count
    ((bs.length : Int), bs ++ buf.drop bs.length)

/-- The zero-filled buffer `palloc0(n)`. -/
def palloc0 (n : Nat) : List Nat := List.replicate n 0

/-! ## Reading struct members out of the buffer -/

/-- Little-endian value of a byte string. -/
def le_value : List Nat → Nat
  | [] => 0
  | b :: bs => b % 256 + 256 * le_value bs

/-- Little-endian byte string of width `w` of a value. -/
def le_bytes : Nat → Nat → List Nat
  | 0, _ => []
  | w + 1, v => v % 256 :: le_bytes w (v / 256)

/-- The `w` bytes of the buffer at offset `off`. -/
def member_bytes (buf : List Nat) (off w : Nat) : List Nat := (buf.drop off).take w

/-- Value of an unsigned member in the byte order of the platform. -/
def bytes_value (p : Platform) (bs : List Nat) : Nat :=
  if p.big_endian then le_value bs.reverse else le_value bs

/-- Bytes of an unsigned member of width `w` in the byte order of the platform. -/
def value_bytes (p : Platform) (w v : Nat) : List Nat :=
  if p.big_endian then (le_bytes w v).reverse else le_bytes w v

/-- Load of an unsigned member of width `w` at offset `off`. -/
def load (p : Platform) (buf : List Nat) (off w : Nat) : Nat :=
  bytes_value p (member_bytes buf off w)

/-- The four assignments `control_file_info->m = ptr->m` for a pointer to a struct of
layout `L`: two 8-byte members, the 4-byte enum `state`, and the 4-byte
`data_checksum_version`. -/
def copy_members (p : Platform) (L : Layout) (buf : List Nat) (info : ControlFileInfo) :
    ControlFileInfo :=
  { info with
    system_identifier := load p buf L.system_identifier 8
    state := (load p buf L.state 4 : Int)
    checkPoint := load p buf L.checkPoint 8
    data_checksum_version := load p buf L.data_checksum_version 4 }

/-! ## controldata.c -/

/-- The phrase for a state code (lines 95 to 116); the translation hook `_()` is taken
as the identity, the untranslated message catalogue. -/
def describe_db_state (state : DBState) : String :=
  if state = DB_STARTUP then "starting up"
  else if state = DB_SHUTDOWNED then "shut down"
  else if state = DB_SHUTDOWNED_IN_RECOVERY then "shut down in recovery"
  else if state = DB_SHUTDOWNING then "shutting down"
  else if state = DB_IN_CRASH_RECOVERY then "in crash recovery"
  else if state = DB_IN_ARCHIVE_RECOVERY then "in archive recovery"
  else if state = DB_IN_PRODUCTION then "in production"
  else "unrecognized status code"

/-- The struct after the five default assignments of lines 137 to 144; the `-1`
assigned to `data_checksum_version` is kept as its 32-bit pattern. -/
def default_info : ControlFileInfo :=
  { control_file_processed := false
    system_identifier := UNKNOWN_SYSTEM_IDENTIFIER
    state := DB_SHUTDOWNED
    checkPoint := InvalidXLogRecPtr
    data_checksum_version := to_uint32 (-1) }

/-- Lines 174 to 180: `version_num` computed from `file_version_string`. `endptr` is
an offset into the string; `*endptr` past its end is the terminating NUL. -/
def version_num (p : Platform) (file_version_string : List Char) : Int :=
  let file_major := (strtol p file_version_string).1
  let endptr := (strtol p file_version_string).2
  let file_minor : Int :=
    if file_version_string[endptr]? = some '.' then
      (strtol p (file_version_string.drop (endptr + 1))).1
    else 0
  int_add (int_mul (to_int32 file_major) 10000) (int_mul (to_int32 file_minor) 100)

/-- Lines 200 to 214: the chain of conditionals that sets `expected_size`, which
starts out as 0. -/
def expected_size (p : Platform) (v : Int) : Nat :=
  if v ≥ 90500 then p.ControlFileData95.size
  else if v ≥ 90400 then p.ControlFileData94.size
  else if v ≥ 90300 then p.ControlFileData93.size
  else 0

/-- Lines 230 to 253: the chain of conditionals that copies the four members out of
the buffer. -/
def extract_members (p : Platform) (v : Int) (buf : List Nat) (info : ControlFileInfo) :
    ControlFileInfo :=
  if v ≥ 90500 then copy_members p p.ControlFileData95 buf info
  else if v ≥ 90400 then copy_members p p.ControlFileData94 buf info
  else if v ≥ 90300 then copy_members p p.ControlFileData93 buf info
  else info

/-- The function `get_controlfile` (lines 123 to 266). `endptr` is `none` for `NULL`
and `some k` for `file_version_string + k`. -/
def get_controlfile (p : Platform) (d : DataDir) : Run :=
  let control_file_info := default_info
  match d.pg_version with
  | none =>
    ⟨control_file_info,
      [.fopen_pg_version false, .log_warning .could_not_open_pg_version]⟩
  | some content =>
    let ret := (fscanf_s63 content).1
    let file_version_string := (fscanf_s63 content).2
    let endptr : Option Nat := none
    let ev1 : List Event := [.fopen_pg_version true, .fclose_pg_version]
    if ret ≠ 1 ∨ endptr = some 0 then
      ⟨control_file_info, ev1 ++ [.log_warning .unable_to_determine_major_version]⟩
    else
      let v := version_num p file_version_string
      if v < 90300 then
        ⟨control_file_info,
          ev1 ++ [.log_warning (.appears_to_be_initialised_for file_version_string)]⟩
      else
        match d.pg_control with
        | none =>
          ⟨control_file_info,
            ev1 ++ [.open_pg_control false, .log_warning .could_not_open_pg_control]⟩
        | some rd =>
          let n := expected_size p v
          let ControlFileData := read rd (palloc0 n) n
          let ev2 := ev1 ++ [.open_pg_control true, .read_pg_control n]
          if ControlFileData.1 ≠ (n : Int) then
            ⟨control_file_info, ev2 ++ [.log_warning .could_not_read_pg_control]⟩
          else
            ⟨extract_members p v ControlFileData.2
                { control_file_info with control_file_processed := true },
              ev2 ++ [.close_pg_control]⟩

/-- The accessor `get_system_identifier` (lines 33 to 45). -/
def get_system_identifier (p : Platform) (data_directory : DataDir) : Nat :=
  (get_controlfile p data_directory).result.system_identifier

/-- The accessor `get_db_state` (lines 47 to 60). -/
def get_db_state (p : Platform) (data_directory : DataDir) : DBState :=
  (get_controlfile p data_directory).result.state

/-- The accessor `get_latest_checkpoint_location` (lines 63 to 76). -/
def get_latest_checkpoint_location (p : Platform) (data_directory : DataDir) : Nat :=
  (get_controlfile p data_directory).result.checkPoint

/-- The accessor `get_data_checksum_version` (lines 79 to 92), with its cast to `int`. -/
def get_data_checksum_version (p : Platform) (data_directory : DataDir) : Int :=
  to_int32 (get_controlfile p data_directory).result.data_checksum_version

/-! ## Consecutive calls in one process -/

/-- What a process carries from one call of `get_controlfile` to the next.
`controldata.c` declares no static or global variable, every local of the function is
assigned before it is read, both files are opened anew by each call, and the buffers
come zero-filled from `palloc0`, so memory a call leaves allocated is never read by a
later one. What a later call can meet is the effect on the descriptor table of the
process: how many entries are in use, out of `descriptor_limit`. -/
structure Process where
  open_descriptors : Nat
  descriptor_limit : Nat
deriving DecidableEq, Repr

/-- The calls `fopen` and `open` need a free entry of the descriptor table; without
one they fail as they do for a file that cannot be opened. -/
def Process.has_free_descriptor (s : Process) : Bool :=
  s.open_descriptors < s.descriptor_limit

/-- A successful `fopen` or `open` takes one entry of the descriptor table. -/
def Process.acquire (s : Process) : Process :=
  { s with open_descriptors := s.open_descriptors + 1 }

/-- The calls `fclose` and `close` give one entry back. -/
def Process.release (s : Process) : Process :=
  { s with open_descriptors := s.open_descriptors - 1 }

/-- The function `get_controlfile` (lines 123 to 266) run in a process: the same
statements as in `get_controlfile`, with the descriptor table passed along. `fopen`
(line 152) and `open` (line 191) take an entry, `fclose` (line 165) and `close`
(line 226) give it back; the return at line 223 comes before any `close`. -/
def get_controlfile_call (p : Platform) (d : DataDir) (s : Process) : Run × Process :=
  let control_file_info := default_info
  match (if s.has_free_descriptor then d.pg_version else none) with
  | none =>
    (⟨control_file_info,
      [.fopen_pg_version false, .log_warning .could_not_open_pg_version]⟩, s)
  | some content =>
    let s1 := s.acquire
    let ret := (fscanf_s63 content).1
    let file_version_string := (fscanf_s63 content).2
    let s2 := s1.release
    let endptr : Option Nat := none
    let ev1 : List Event := [.fopen_pg_version true, .fclose_pg_version]
    if ret ≠ 1 ∨ endptr = some 0 then
      (⟨control_file_info, ev1 ++ [.log_warning .unable_to_determine_major_version]⟩, s2)
    else
      let v := version_num p file_version_string
      if v < 90300 then
        (⟨control_file_info,
          ev1 ++ [.log_warning (.appears_to_be_initialised_for file_version_string)]⟩, s2)
      else
        match (if s2.has_free_descriptor then d.pg_control else none) with
        | none =>
          (⟨control_file_info,
            ev1 ++ [.open_pg_control false, .log_warning .could_not_open_pg_control]⟩, s2)
        | some rd =>
          let s3 := s2.acquire
          let n := expected_size p v
          let ControlFileData := read rd (palloc0 n) n
          let ev2 := ev1 ++ [.open_pg_control true, .read_pg_control n]
          if ControlFileData.1 ≠ (n : Int) then
            (⟨control_file_info, ev2 ++ [.log_warning .could_not_read_pg_control]⟩, s3)
          else
            (⟨extract_members p v ControlFileData.2
                { control_file_info with control_file_processed := true },
              ev2 ++ [.close_pg_control]⟩, s3.release)

/-! ## Notions used to state the properties -/

/-- The value a digit string denotes in base 10, most significant digit first. -/
def decimal (ds : List Char) : Nat :=
  Nat.ofDigits 10 (ds.reverse.map (fun c => c.toNat - 48))

/-- The value `strtol` returns for a magnitude that carries no minus sign. -/
def clamp_long (p : Platform) (mag : Nat) : Int :=
  if mag > LONG_MAX p then (LONG_MAX p : Int) else (mag : Int)

/-- The layout `L` is the one whose version range contains `v`. -/
def selects (p : Platform) (v : Int) (L : Layout) : Prop :=
  (90500 ≤ v ∧ L = p.ControlFileData95) ∨
  (90400 ≤ v ∧ v < 90500 ∧ L = p.ControlFileData94) ∨
  (90300 ≤ v ∧ v < 90400 ∧ L = p.ControlFileData93)

instance (p : Platform) (v : Int) (L : Layout) : Decidable (selects p v L) := by
  unfold selects; infer_instance

/-- What `strtol` returns once it stands behind the white space and the sign: `neg`
tells whether a minus sign was taken, `consumed` counts the characters skipped so far,
and `s2` is the rest of the string. -/
def strtol_after_sign (p : Platform) (neg : Bool) (consumed : Nat) (s2 : List Char) :
    Int × Nat :=
  if s2.takeWhile isdigit = [] then (0, 0)
  else
    ((if neg then
        (if digits_value (s2.takeWhile isdigit) > LONG_MAX p + 1 then
          -((LONG_MAX p : Int) + 1)
        else -(digits_value (s2.takeWhile isdigit) : Int))
      else
        (if digits_value (s2.takeWhile isdigit) > LONG_MAX p then (LONG_MAX p : Int)
        else (digits_value (s2.takeWhile isdigit) : Int))),
      consumed + (s2.takeWhile isdigit).length)

/-- The arithmetic of line 180 on the two values `strtol` returned: each is cast to
`int`, scaled, and the products are added, every step wrapping to 32 bits. -/
def version_num_of_parts (file_major file_minor : Int) : Int :=
  int_add (int_mul (to_int32 file_major) 10000) (int_mul (to_int32 file_minor) 100)

/-- The string begins with a decimal digit, or with a sign followed by a decimal
digit: the strings on which `strtol` finds a number at the start. -/
def starts_number (s : List Char) : Bool :=
  match s with
  | [] => false
  | c :: t => isdigit c || ((c = '-' || c = '+') && (t.head?.map isdigit = some true))

/-! ## A small platform and sample directories, for evaluating the model -/

/-- A platform with three small layouts of different sizes, little-endian, 64-bit
`long`. -/
def sample_platform : Platform :=
  { ControlFileData93 := ⟨36, 0, 16, 24, 32⟩
    ControlFileData94 := ⟨40, 0, 16, 24, 36⟩
    ControlFileData95 := ⟨44, 0, 16, 24, 40⟩
    big_endian := false
    long_is_64 := true }

/-- A control file that delivers as many of the given bytes as are asked for. -/
def file_read (bytes : List Nat) : Nat → ReadResult :=
  fun count => .got (bytes.take count)

/-- A 44-byte record for the newest layout of `sample_platform`: identifier 7 at offset
0, state 6 at offset 16, checkpoint 9 at offset 24, checksum version 1 at offset 40. -/
def sample_record : List Nat :=
  le_bytes 8 7 ++ List.replicate 8 0 ++ le_bytes 4 6 ++ List.replicate 4 0 ++
    le_bytes 8 9 ++ List.replicate 8 0 ++ le_bytes 4 1

/-- A data directory of version 9.6 with a complete control file. -/
def complete_dir : DataDir :=
  { pg_version := some "9.6\n".toList
    pg_control := some (file_read sample_record) }

/-- A data directory of version 9.2 with a complete control file. -/
def old_dir : DataDir :=
  { pg_version := some "9.2\n".toList
    pg_control := some (file_read sample_record) }

/-- A data directory without a marker file. -/
def unmarked_dir : DataDir :=
  { pg_version := none
    pg_control := some (file_read sample_record) }

/-- A data directory of version 9.6 whose control file cannot be opened. -/
def uncontrolled_dir : DataDir :=
  { pg_version := some "9.6\n".toList
    pg_control := none }

/-- A data directory whose marker file holds `9.6` and whose control file holds only
30 bytes, fewer than any layout of `sample_platform`. -/
def truncated_dir : DataDir :=
  { pg_version := some "9.6\n".toList
    pg_control := some (file_read (List.replicate 30 1)) }

/-- A data directory whose marker file holds only white space. -/
def blank_dir : DataDir :=
  { pg_version := some "  \n".toList
    pg_control := some (file_read sample_record) }

/-- A data directory whose marker file holds the token `.903`. -/
def dotted_dir : DataDir :=
  { pg_version := some ".903\n".toList
    pg_control := some (file_read sample_record) }

/-- The record of `sample_record` with the four bytes of the checksum version at offset
40 all set to 255. -/
def all_ones_checksum_record : List Nat :=
  sample_record.take 40 ++ [255, 255, 255, 255]

/-- A data directory of version 9.6 whose complete control file stores the checksum
version `0xFFFFFFFF`. -/
def all_ones_checksum_dir : DataDir :=
  { pg_version := some "9.6\n".toList
    pg_control := some (file_read all_ones_checksum_record) }

/-! ## The exits of `get_controlfile` -/

theorem get_controlfile_marker_unopened (p : Platform) (d : DataDir)
    (h : d.pg_version = none) :
    get_controlfile p d =
      ⟨default_info, [.fopen_pg_version false, .log_warning .could_not_open_pg_version]⟩ := by
  simp [get_controlfile, h]

theorem get_controlfile_no_conversion (p : Platform) (d : DataDir) (content : List Char)
    (h : d.pg_version = some content) (hret : (fscanf_s63 content).1 ≠ 1) :
    get_controlfile p d =
      ⟨default_info, [.fopen_pg_version true, .fclose_pg_version,
        .log_warning .unable_to_determine_major_version]⟩ := by
  simp [get_controlfile, h, hret]

theorem get_controlfile_too_old (p : Platform) (d : DataDir) (content : List Char)
    (h : d.pg_version = some content) (hret : (fscanf_s63 content).1 = 1)
    (hv : version_num p (fscanf_s63 content).2 < 90300) :
    get_controlfile p d =
      ⟨default_info, [.fopen_pg_version true, .fclose_pg_version,
        .log_warning (.appears_to_be_initialised_for (fscanf_s63 content).2)]⟩ := by
  simp [get_controlfile, h, hret, hv]

theorem get_controlfile_control_unopened (p : Platform) (d : DataDir) (content : List Char)
    (h : d.pg_version = some content) (hret : (fscanf_s63 content).1 = 1)
    (hv : 90300 ≤ version_num p (fscanf_s63 content).2) (hc : d.pg_control = none) :
    get_controlfile p d =
      ⟨default_info, [.fopen_pg_version true, .fclose_pg_version,
        .open_pg_control false, .log_warning .could_not_open_pg_control]⟩ := by
  simp [get_controlfile, h, hret, not_lt.mpr hv, hc]

theorem get_controlfile_read_mismatch (p : Platform) (d : DataDir) (content : List Char)
    (rd : Nat → ReadResult)
    (h : d.pg_version = some content) (hret : (fscanf_s63 content).1 = 1)
    (hv : 90300 ≤ version_num p (fscanf_s63 content).2) (hc : d.pg_control = some rd)
    (hread : (read rd (palloc0 (expected_size p (version_num p (fscanf_s63 content).2)))
        (expected_size p (version_num p (fscanf_s63 content).2))).1
      ≠ (expected_size p (version_num p (fscanf_s63 content).2) : Int)) :
    get_controlfile p d =
      ⟨default_info, [.fopen_pg_version true, .fclose_pg_version, .open_pg_control true,
        .read_pg_control (expected_size p (version_num p (fscanf_s63 content).2)),
        .log_warning .could_not_read_pg_control]⟩ := by
  simp [get_controlfile, h, hret, not_lt.mpr hv, hc, hread]

theorem get_controlfile_read_full (p : Platform) (d : DataDir) (content : List Char)
    (rd : Nat → ReadResult)
    (h : d.pg_version = some content) (hret : (fscanf_s63 content).1 = 1)
    (hv : 90300 ≤ version_num p (fscanf_s63 content).2) (hc : d.pg_control = some rd)
    (hread : (read rd (palloc0 (expected_size p (version_num p (fscanf_s63 content).2)))
        (expected_size p (version_num p (fscanf_s63 content).2))).1
      = (expected_size p (version_num p (fscanf_s63 content).2) : Int)) :
    get_controlfile p d =
      ⟨extract_members p (version_num p (fscanf_s63 content).2)
          (read rd (palloc0 (expected_size p (version_num p (fscanf_s63 content).2)))
            (expected_size p (version_num p (fscanf_s63 content).2))).2
          { default_info with control_file_processed := true },
        [.fopen_pg_version true, .fclose_pg_version, .open_pg_control true,
          .read_pg_control (expected_size p (version_num p (fscanf_s63 content).2)),
          .close_pg_control]⟩ := by
  simp [get_controlfile, h, hret, not_lt.mpr hv, hc, hread]

/-! ## Layout selection -/

theorem expected_size_95 (p : Platform) (v : Int) (h : 90500 ≤ v) :
    expected_size p v = p.ControlFileData95.size := by
  simp [expected_size, h]

theorem expected_size_94 (p : Platform) (v : Int) (h : 90400 ≤ v) (h2 : v < 90500) :
    expected_size p v = p.ControlFileData94.size := by
  simp [expected_size, h, not_le.mpr h2]

theorem expected_size_93 (p : Platform) (v : Int) (h : 90300 ≤ v) (h2 : v < 90400) :
    expected_size p v = p.ControlFileData93.size := by
  have h3 : v < 90500 := by omega
  simp [expected_size, h, not_le.mpr h2, not_le.mpr h3]

theorem extract_members_95 (p : Platform) (v : Int) (h : 90500 ≤ v) (buf : List Nat)
    (info : ControlFileInfo) :
    extract_members p v buf info = copy_members p p.ControlFileData95 buf info := by
  simp [extract_members, h]

theorem extract_members_94 (p : Platform) (v : Int) (h : 90400 ≤ v) (h2 : v < 90500)
    (buf : List Nat) (info : ControlFileInfo) :
    extract_members p v buf info = copy_members p p.ControlFileData94 buf info := by
  simp [extract_members, h, not_le.mpr h2]

theorem extract_members_93 (p : Platform) (v : Int) (h : 90300 ≤ v) (h2 : v < 90400)
    (buf : List Nat) (info : ControlFileInfo) :
    extract_members p v buf info = copy_members p p.ControlFileData93 buf info := by
  have h3 : v < 90500 := by omega
  simp [extract_members, h, not_le.mpr h2, not_le.mpr h3]

theorem selects_supported {p : Platform} {v : Int} {L : Layout} (h : selects p v L) :
    90300 ≤ v := by
  rcases h with ⟨h, _⟩ | ⟨h, _, _⟩ | ⟨h, _, _⟩ <;> omega

theorem selects_expected_size {p : Platform} {v : Int} {L : Layout} (h : selects p v L) :
    expected_size p v = L.size := by
  rcases h with ⟨h, rfl⟩ | ⟨h, h2, rfl⟩ | ⟨h, h2, rfl⟩
  · exact expected_size_95 p v h
  · exact expected_size_94 p v h h2
  · exact expected_size_93 p v h h2

theorem selects_extract_members {p : Platform} {v : Int} {L : Layout} (h : selects p v L)
    (buf : List Nat) (info : ControlFileInfo) :
    extract_members p v buf info = copy_members p L buf info := by
  rcases h with ⟨h, rfl⟩ | ⟨h, h2, rfl⟩ | ⟨h, h2, rfl⟩
  · exact extract_members_95 p v h buf info
  · exact extract_members_94 p v h h2 buf info
  · exact extract_members_93 p v h h2 buf info

theorem extract_members_processed (p : Platform) (v : Int) (buf : List Nat)
    (info : ControlFileInfo) :
    (extract_members p v buf info).control_file_processed = info.control_file_processed := by
  unfold extract_members copy_members
  split_ifs <;> rfl

/-! ## Byte order -/

theorem le_value_le_bytes (w v : Nat) : le_value (le_bytes w v) = v % 256 ^ w := by
  induction w generalizing v with
  | zero => simp [le_bytes, le_value, Nat.mod_one]
  | succ w ih =>
    simp only [le_bytes, le_value, ih, Nat.mod_mod]
    rw [pow_succ, mul_comm (256 ^ w) 256, Nat.mod_mul]

theorem bytes_value_value_bytes (p : Platform) (w v : Nat) (h : v < 256 ^ w) :
    bytes_value p (value_bytes p w v) = v := by
  unfold bytes_value value_bytes
  split_ifs <;> simp [le_value_le_bytes, Nat.mod_eq_of_lt h]

theorem load_of_member_bytes (p : Platform) (buf : List Nat) (off w v : Nat)
    (hb : member_bytes buf off w = value_bytes p w v) (h : v < 256 ^ w) :
    load p buf off w = v := by
  rw [load, hb, bytes_value_value_bytes p w v h]

/-! ## The default struct -/

theorem default_info_eq :
    default_info = ⟨false, 0, 1, 0, 4294967295⟩ := by
  decide

theorem default_info_checksum_as_int :
    to_int32 default_info.data_checksum_version = -1 := by
  decide

/-! ## `strtol` on strings of digits -/

theorem digits_value_foldl (ds : List Char) (acc : Nat) :
    ds.foldl (fun acc c => 10 * acc + (c.toNat - 48)) acc
      = acc * 10 ^ ds.length + decimal ds := by
  induction ds generalizing acc with
  | nil => simp [decimal]
  | cons c t ih =>
    simp only [List.foldl_cons, ih, decimal, List.reverse_cons, List.map_append,
      List.map_cons, List.map_nil, Nat.ofDigits_append, Nat.ofDigits_singleton,
      List.length_map, List.length_reverse, List.length_cons]
    ring

theorem digits_value_eq_decimal (ds : List Char) : digits_value ds = decimal ds := by
  simp [digits_value, digits_value_foldl]

theorem isdigit_not_isspace {c : Char} (h : isdigit c = true) : isspace c = false := by
  simp only [isdigit, Bool.and_eq_true, decide_eq_true_eq] at h
  simp only [isspace, Bool.or_eq_false_iff, decide_eq_false_iff_not, Bool.and_eq_false_iff]
  omega

theorem isdigit_not_sign {c : Char} (h : isdigit c = true) : c ≠ '-' ∧ c ≠ '+' := by
  constructor <;> rintro rfl <;> revert h <;> decide

theorem strtol_digits_append (p : Platform) (M rest : List Char)
    (hM : ∀ c ∈ M, isdigit c = true)
    (hrest : ∀ c, rest.head? = some c →
      isdigit c = false ∧ isspace c = false ∧ c ≠ '-' ∧ c ≠ '+') :
    strtol p (M ++ rest) = (clamp_long p (decimal M), M.length) := by
  have htw : (M ++ rest).takeWhile isdigit = M := by
    rw [List.takeWhile_append_of_pos hM]
    cases rest with
    | nil => simp
    | cons c t => simp [(hrest c rfl).1]
  cases M with
  | nil =>
    simp only [List.nil_append] at htw ⊢
    cases rest with
    | nil => simp [strtol, clamp_long, decimal]
    | cons c t =>
      obtain ⟨hd, hs, hm, hp⟩ := hrest c rfl
      simp [strtol, clamp_long, decimal, hs, hm, hp, hd]
  | cons c t =>
    have hc : isdigit c = true := hM c (List.mem_cons_self _ _)
    have hs := isdigit_not_isspace hc
    obtain ⟨hm, hp⟩ := isdigit_not_sign hc
    simp only [List.cons_append] at htw ⊢
    have htw2 : List.takeWhile isdigit (t ++ rest) = t := by
      simpa [List.takeWhile_cons, hc] using htw
    simp [strtol, hs, hm, hp, hc, htw2, digits_value_eq_decimal, clamp_long]

theorem to_int32_of_range (x : Int) (h1 : -2147483648 ≤ x) (h2 : x ≤ 2147483647) :
    to_int32 x = x := by
  unfold to_int32
  omega

theorem clamp_long_of_int_range (p : Platform) (n : Nat) (h : n ≤ 2147483647) :
    clamp_long p n = (n : Int) := by
  unfold clamp_long LONG_MAX
  split_ifs <;> omega

theorem getElem_at_length_append_cons (M N : List Char) (c : Char) :
    (M ++ c :: N)[M.length]? = some c := by
  induction M with
  | nil => simp
  | cons a t ih => simpa using ih

theorem drop_length_succ_append_cons (M N : List Char) (c : Char) :
    (M ++ c :: N).drop (M.length + 1) = N := by
  induction M with
  | nil => rfl
  | cons a t ih => simp

/-! ## Unprocessed results -/

theorem get_controlfile_unprocessed_is_default (p : Platform) (d : DataDir)
    (h : (get_controlfile p d).result.control_file_processed = false) :
    (get_controlfile p d).result = default_info := by
  cases hm : d.pg_version with
  | none => rw [get_controlfile_marker_unopened p d hm]
  | some content =>
    by_cases ht : (fscanf_s63 content).1 = 1
    · by_cases hv : version_num p (fscanf_s63 content).2 < 90300
      · rw [get_controlfile_too_old p d content hm ht hv]
      · have hv2 := not_lt.mp hv
        cases hc : d.pg_control with
        | none => rw [get_controlfile_control_unopened p d content hm ht hv2 hc]
        | some rd =>
          by_cases hr :
            (read rd (palloc0 (expected_size p (version_num p (fscanf_s63 content).2)))
              (expected_size p (version_num p (fscanf_s63 content).2))).1
            = (expected_size p (version_num p (fscanf_s63 content).2) : Int)
          · rw [get_controlfile_read_full p d content rd hm ht hv2 hc hr] at h
            simp [extract_members_processed] at h
          · rw [get_controlfile_read_mismatch p d content rd hm ht hv2 hc hr]
    · rw [get_controlfile_no_conversion p d content hm ht]

/-! ## Claims -/

/-- C1: for a supported version (at least 90300) and a control file whose read returns
exactly the size of the selected layout, `get_controlfile` returns
`control_file_processed = true` and the four members equal to the values stored at the
offsets of the selected layout (`ControlFileData93`, `94` or `95`) in the bytes read. -/
theorem get_controlfile_decodes_full_record (p : Platform) (d : DataDir)
    (content : List Char) (rd : Nat → ReadResult) (L : Layout) (buf : List Nat)
    (sid st cp dcv : Nat)
    (hmarker : d.pg_version = some content)
    (htoken : (fscanf_s63 content).1 = 1)
    (hsel : selects p (version_num p (fscanf_s63 content).2) L)
    (hcontrol : d.pg_control = some rd)
    (hread : read rd (palloc0 L.size) L.size = ((L.size : Int), buf))
    (hsid : member_bytes buf L.system_identifier 8 = value_bytes p 8 sid)
    (hsid_lt : sid < 2 ^ 64)
    (hst : member_bytes buf L.state 4 = value_bytes p 4 st)
    (hst_lt : st < 2 ^ 32)
    (hcp : member_bytes buf L.checkPoint 8 = value_bytes p 8 cp)
    (hcp_lt : cp < 2 ^ 64)
    (hdcv : member_bytes buf L.data_checksum_version 4 = value_bytes p 4 dcv)
    (hdcv_lt : dcv < 2 ^ 32) :
    (get_controlfile p d).result =
      { control_file_processed := true
        system_identifier := sid
        state := (st : Int)
        checkPoint := cp
        data_checksum_version := dcv } := by
  have hsize := selects_expected_size hsel
  have hfull := get_controlfile_read_full p d content rd hmarker htoken
    (selects_supported hsel) hcontrol (by rw [hsize, hread])
  rw [hfull]
  simp only [selects_extract_members hsel, hsize, hread, copy_members]
  rw [load_of_member_bytes p buf _ 8 sid hsid (by norm_num; omega),
    load_of_member_bytes p buf _ 4 st hst (by norm_num; omega),
    load_of_member_bytes p buf _ 8 cp hcp (by norm_num; omega),
    load_of_member_bytes p buf _ 4 dcv hdcv (by norm_num; omega)]

theorem get_controlfile_decodes_full_record_witness :
    selects sample_platform (version_num sample_platform (fscanf_s63 "9.6\n".toList).2)
        sample_platform.ControlFileData95 ∧
      (get_controlfile sample_platform complete_dir).result = ⟨true, 7, 6, 9, 1⟩ :=
  ⟨by decide,
    get_controlfile_decodes_full_record sample_platform complete_dir "9.6\n".toList
      (file_read sample_record) sample_platform.ControlFileData95 sample_record 7 6 9 1
      rfl (by decide) (by decide) rfl (by decide) (by decide) (by decide) (by decide)
      (by decide) (by decide) (by decide) (by decide) (by decide)⟩

/-- C2: for a token `<major>.<minor>` or `<major>` of decimal digits with
`major*10000 + minor*100` within the range of `int`, the version number computed is
`major*10000 + minor*100`, the minor being 0 when the `.minor` part is absent. -/
theorem version_num_of_major_minor (p : Platform) (M N : List Char)
    (hM : ∀ c ∈ M, isdigit c = true) (hN : ∀ c ∈ N, isdigit c = true)
    (hrange : decimal M * 10000 + decimal N * 100 ≤ 2147483647) :
    version_num p (M ++ '.' :: N) = ((decimal M * 10000 + decimal N * 100 : Nat) : Int) ∧
      version_num p M = ((decimal M * 10000 : Nat) : Int) := by
  have hmaj : strtol p (M ++ '.' :: N) = (clamp_long p (decimal M), M.length) :=
    strtol_digits_append p M ('.' :: N) hM (by
      intro c hc
      simp only [List.head?_cons, Option.some.injEq] at hc
      subst hc
      decide)
  have hmin : strtol p N = (clamp_long p (decimal N), N.length) := by
    simpa using strtol_digits_append p N [] hN (by simp)
  have hmaj0 : strtol p M = (clamp_long p (decimal M), M.length) := by
    simpa using strtol_digits_append p M [] hM (by simp)
  have hMle : decimal M ≤ 2147483647 := by omega
  have hNle : decimal N ≤ 2147483647 := by omega
  have e1 : to_int32 (decimal M : Int) = decimal M := to_int32_of_range _ (by omega) (by omega)
  have e2 : to_int32 (decimal N : Int) = decimal N := to_int32_of_range _ (by omega) (by omega)
  have e3 : to_int32 ((decimal M : Int) * 10000) = decimal M * 10000 :=
    to_int32_of_range _ (by omega) (by omega)
  have e4 : to_int32 ((decimal N : Int) * 100) = decimal N * 100 :=
    to_int32_of_range _ (by omega) (by omega)
  have e5 : to_int32 ((decimal M : Int) * 10000 + decimal N * 100)
      = decimal M * 10000 + decimal N * 100 := to_int32_of_range _ (by omega) (by omega)
  constructor
  · simp only [version_num, hmaj, getElem_at_length_append_cons, if_true,
      drop_length_succ_append_cons, hmin, clamp_long_of_int_range p _ hMle,
      clamp_long_of_int_range p _ hNle, int_add, int_mul, e1, e2, e3, e4, e5]
    push_cast
    rfl
  · have hnone : M[M.length]? = none := by simp
    simp only [version_num, hmaj0, hnone, clamp_long_of_int_range p _ hMle,
      int_add, int_mul, e1, e3]
    simp only [reduceCtorEq, if_false, to_int32, Int.reduceMul]
    push_cast
    omega

theorem version_num_of_major_minor_witness :
    version_num sample_platform "9.6".toList = 90600 ∧
      version_num sample_platform "12".toList = 120000 :=
  ⟨(version_num_of_major_minor sample_platform "9".toList "6".toList
      (by decide) (by decide) (by decide)).1,
    (version_num_of_major_minor sample_platform "12".toList [] (by decide) (by decide)
      (by decide)).2⟩

/-- C3: for a version number of at least 90300 exactly one of the three ranges
`v >= 90500`, `90400 <= v < 90500`, `90300 <= v < 90400` holds, and in each range both
the size requested from `read` and the struct the members are copied from are those of
`ControlFileData95`, `ControlFileData94`, `ControlFileData93` respectively. -/
theorem layout_selected_by_range (p : Platform) (v : Int) (hv : 90300 ≤ v) :
    (90500 ≤ v →
      expected_size p v = p.ControlFileData95.size ∧
      ∀ buf info, extract_members p v buf info = copy_members p p.ControlFileData95 buf info) ∧
    (90400 ≤ v ∧ v < 90500 →
      expected_size p v = p.ControlFileData94.size ∧
      ∀ buf info, extract_members p v buf info = copy_members p p.ControlFileData94 buf info) ∧
    (90300 ≤ v ∧ v < 90400 →
      expected_size p v = p.ControlFileData93.size ∧
      ∀ buf info, extract_members p v buf info = copy_members p p.ControlFileData93 buf info) ∧
    ((90500 ≤ v ∧ ¬(90400 ≤ v ∧ v < 90500) ∧ ¬(90300 ≤ v ∧ v < 90400)) ∨
      (¬90500 ≤ v ∧ (90400 ≤ v ∧ v < 90500) ∧ ¬(90300 ≤ v ∧ v < 90400)) ∨
      (¬90500 ≤ v ∧ ¬(90400 ≤ v ∧ v < 90500) ∧ (90300 ≤ v ∧ v < 90400))) := by
  refine ⟨fun h => ⟨expected_size_95 p v h, extract_members_95 p v h⟩,
    fun h => ⟨expected_size_94 p v h.1 h.2, extract_members_94 p v h.1 h.2⟩,
    fun h => ⟨expected_size_93 p v h.1 h.2, extract_members_93 p v h.1 h.2⟩, ?_⟩
  omega

theorem layout_selected_by_range_witness :
    expected_size sample_platform 90400 = 40 ∧
      ∀ buf info, extract_members sample_platform 90400 buf info
        = copy_members sample_platform sample_platform.ControlFileData94 buf info :=
  (layout_selected_by_range sample_platform 90400 (by decide)).2.1 (by decide)

/-- C4: for a version number below 90300, whatever the control file holds,
`get_controlfile` returns `control_file_processed = false` and the defaults
`UNKNOWN_SYSTEM_IDENTIFIER` (0), `DB_SHUTDOWNED`, `InvalidXLogRecPtr`, and `-1` stored in
`data_checksum_version` (read back as the `int` -1). -/
theorem get_controlfile_below_90300 (p : Platform) (d : DataDir) (content : List Char)
    (hmarker : d.pg_version = some content)
    (htoken : (fscanf_s63 content).1 = 1)
    (hv : version_num p (fscanf_s63 content).2 < 90300) :
    (get_controlfile p d).result =
        { control_file_processed := false
          system_identifier := UNKNOWN_SYSTEM_IDENTIFIER
          state := DB_SHUTDOWNED
          checkPoint := InvalidXLogRecPtr
          data_checksum_version := to_uint32 (-1) } ∧
      UNKNOWN_SYSTEM_IDENTIFIER = 0 ∧
      to_int32 (get_controlfile p d).result.data_checksum_version = -1 := by
  rw [get_controlfile_too_old p d content hmarker htoken hv]
  exact ⟨rfl, rfl, default_info_checksum_as_int⟩

theorem get_controlfile_below_90300_witness :
    version_num sample_platform (fscanf_s63 "9.2\n".toList).2 = 90200 ∧
      (get_controlfile sample_platform old_dir).result = ⟨false, 0, DB_SHUTDOWNED, 0, 4294967295⟩ :=
  ⟨by decide,
    (get_controlfile_below_90300 sample_platform old_dir "9.2\n".toList rfl (by decide)
      (by decide)).1⟩

/-- C5: for a supported version and a control file whose read returns less than the
size of the selected layout, `get_controlfile` returns `control_file_processed = false`
and the four members hold their defaults (0, `DB_SHUTDOWNED`, `InvalidXLogRecPtr`, -1),
whatever bytes were delivered. -/
theorem get_controlfile_short_read (p : Platform) (d : DataDir) (content : List Char)
    (rd : Nat → ReadResult) (L : Layout)
    (hmarker : d.pg_version = some content)
    (htoken : (fscanf_s63 content).1 = 1)
    (hsel : selects p (version_num p (fscanf_s63 content).2) L)
    (hcontrol : d.pg_control = some rd)
    (hread : (read rd (palloc0 L.size) L.size).1 < (L.size : Int)) :
    (get_controlfile p d).result =
        { control_file_processed := false
          system_identifier := UNKNOWN_SYSTEM_IDENTIFIER
          state := DB_SHUTDOWNED
          checkPoint := InvalidXLogRecPtr
          data_checksum_version := to_uint32 (-1) } ∧
      to_int32 (get_controlfile p d).result.data_checksum_version = -1 := by
  have hsize := selects_expected_size hsel
  rw [get_controlfile_read_mismatch p d content rd hmarker htoken
    (selects_supported hsel) hcontrol (by rw [hsize]; exact ne_of_lt hread)]
  exact ⟨rfl, default_info_checksum_as_int⟩

theorem get_controlfile_short_read_witness :
    (read (file_read (List.replicate 30 1)) (palloc0 44) 44).1 = 30 ∧
      (get_controlfile sample_platform truncated_dir).result
        = ⟨false, 0, DB_SHUTDOWNED, 0, 4294967295⟩ :=
  ⟨by decide,
    (get_controlfile_short_read sample_platform truncated_dir "9.6\n".toList
      (file_read (List.replicate 30 1)) sample_platform.ControlFileData95
      rfl (by decide) (by decide) rfl (by decide)).1⟩

/-- C6 (what the code does at the failing input): for the marker token `abc` the call
does not take the `unable to determine major version number` exit; it computes version
number 0 and leaves through the version-too-old exit, with the control file neither
opened nor read. -/
theorem get_controlfile_abc_takes_too_old_exit (p : Platform)
    (control : Option (Nat → ReadResult)) :
    get_controlfile p { pg_version := some "abc".toList, pg_control := control } =
      ⟨default_info, [.fopen_pg_version true, .fclose_pg_version,
        .log_warning (.appears_to_be_initialised_for "abc".toList)]⟩ := by
  have hv : version_num p (fscanf_s63 "abc".toList).2 = 0 := rfl
  exact get_controlfile_too_old p _ "abc".toList rfl (by decide) (by rw [hv]; decide)

/-- C7: if `PG_VERSION` cannot be opened, or the version is supported and
`global/pg_control` cannot be opened, `get_controlfile` returns with
`control_file_processed = false` and the four members at their defaults. -/
theorem get_controlfile_unopened_file (p : Platform) (d : DataDir)
    (h : d.pg_version = none ∨
      ∃ content, d.pg_version = some content ∧ (fscanf_s63 content).1 = 1 ∧
        90300 ≤ version_num p (fscanf_s63 content).2 ∧ d.pg_control = none) :
    (get_controlfile p d).result =
        { control_file_processed := false
          system_identifier := UNKNOWN_SYSTEM_IDENTIFIER
          state := DB_SHUTDOWNED
          checkPoint := InvalidXLogRecPtr
          data_checksum_version := to_uint32 (-1) } ∧
      to_int32 (get_controlfile p d).result.data_checksum_version = -1 := by
  rcases h with h | ⟨content, hm, ht, hv, hc⟩
  · rw [get_controlfile_marker_unopened p d h]
    exact ⟨rfl, default_info_checksum_as_int⟩
  · rw [get_controlfile_control_unopened p d content hm ht hv hc]
    exact ⟨rfl, default_info_checksum_as_int⟩

theorem get_controlfile_unopened_file_witness :
    (get_controlfile sample_platform unmarked_dir).result
        = ⟨false, 0, DB_SHUTDOWNED, 0, 4294967295⟩ ∧
      (get_controlfile sample_platform uncontrolled_dir).result
        = ⟨false, 0, DB_SHUTDOWNED, 0, 4294967295⟩ :=
  ⟨(get_controlfile_unopened_file sample_platform unmarked_dir (Or.inl rfl)).1,
    (get_controlfile_unopened_file sample_platform uncontrolled_dir
      (Or.inr ⟨"9.6\n".toList, rfl, by decide, by decide, rfl⟩)).1⟩

/-- C8: `describe_db_state` maps the seven `DBState` values to seven phrases that are
non-empty and pairwise distinct, and every other integer to the fallback phrase
`unrecognized status code`, which is none of the seven. -/
theorem describe_db_state_phrases :
    [DB_STARTUP, DB_SHUTDOWNED, DB_SHUTDOWNED_IN_RECOVERY, DB_SHUTDOWNING,
        DB_IN_CRASH_RECOVERY, DB_IN_ARCHIVE_RECOVERY, DB_IN_PRODUCTION].map describe_db_state
      = ["starting up", "shut down", "shut down in recovery", "shutting down",
        "in crash recovery", "in archive recovery", "in production"] ∧
    List.Pairwise (fun a b => a ≠ b)
      ([DB_STARTUP, DB_SHUTDOWNED, DB_SHUTDOWNED_IN_RECOVERY, DB_SHUTDOWNING,
        DB_IN_CRASH_RECOVERY, DB_IN_ARCHIVE_RECOVERY, DB_IN_PRODUCTION].map
          describe_db_state) ∧
    (∀ phrase ∈ [DB_STARTUP, DB_SHUTDOWNED, DB_SHUTDOWNED_IN_RECOVERY, DB_SHUTDOWNING,
        DB_IN_CRASH_RECOVERY, DB_IN_ARCHIVE_RECOVERY, DB_IN_PRODUCTION].map
          describe_db_state,
      phrase ≠ "" ∧ phrase ≠ "unrecognized status code") ∧
    (∀ state : DBState,
      state ∉ [DB_STARTUP, DB_SHUTDOWNED, DB_SHUTDOWNED_IN_RECOVERY, DB_SHUTDOWNING,
        DB_IN_CRASH_RECOVERY, DB_IN_ARCHIVE_RECOVERY, DB_IN_PRODUCTION] →
      describe_db_state state = "unrecognized status code") := by
  refine ⟨by decide, by decide, by decide, ?_⟩
  intro state h
  simp only [List.mem_cons, List.mem_singleton, not_or, List.not_mem_nil, not_false_eq_true,
    and_true] at h
  obtain ⟨h0, h1, h2, h3, h4, h5, h6⟩ := h
  simp [describe_db_state, h0, h1, h2, h3, h4, h5, h6]

theorem describe_db_state_phrases_witness :
    describe_db_state 7 = "unrecognized status code" ∧
      describe_db_state (-1) = "unrecognized status code" :=
  ⟨describe_db_state_phrases.2.2.2 7 (by decide),
    describe_db_state_phrases.2.2.2 (-1) (by decide)⟩

/-- C9 (what the code does at the failing input): with marker `9.6` and a control file
of 30 bytes the call opens the control file, reads, logs the read failure and returns;
its trace holds no `close` of the control file. -/
theorem short_read_leaves_control_file_open :
    (get_controlfile sample_platform truncated_dir).events =
        [.fopen_pg_version true, .fclose_pg_version, .open_pg_control true,
          .read_pg_control 44, .log_warning .could_not_read_pg_control] ∧
      Event.close_pg_control ∉ (get_controlfile sample_platform truncated_dir).events := by
  decide

/-- C10: each of the four accessors returns the corresponding member of the struct
`get_controlfile` builds for the same directory (the checksum version through its cast
to `int`), and when that struct is unprocessed they return `UNKNOWN_SYSTEM_IDENTIFIER`,
`DB_SHUTDOWNED`, `InvalidXLogRecPtr` and -1. -/
theorem accessors_return_members (p : Platform) (d : DataDir) :
    get_system_identifier p d = (get_controlfile p d).result.system_identifier ∧
    get_db_state p d = (get_controlfile p d).result.state ∧
    get_latest_checkpoint_location p d = (get_controlfile p d).result.checkPoint ∧
    get_data_checksum_version p d
      = to_int32 (get_controlfile p d).result.data_checksum_version ∧
    ((get_controlfile p d).result.control_file_processed = false →
      get_system_identifier p d = UNKNOWN_SYSTEM_IDENTIFIER ∧
      get_db_state p d = DB_SHUTDOWNED ∧
      get_latest_checkpoint_location p d = InvalidXLogRecPtr ∧
      get_data_checksum_version p d = -1) := by
  refine ⟨rfl, rfl, rfl, rfl, fun h => ?_⟩
  have hd := get_controlfile_unprocessed_is_default p d h
  simp only [get_system_identifier, get_db_state, get_latest_checkpoint_location,
    get_data_checksum_version, hd]
  exact ⟨rfl, rfl, rfl, default_info_checksum_as_int⟩

theorem accessors_return_members_witness :
    get_system_identifier sample_platform truncated_dir = 0 ∧
      get_db_state sample_platform truncated_dir = DB_SHUTDOWNED ∧
      get_latest_checkpoint_location sample_platform truncated_dir = 0 ∧
      get_data_checksum_version sample_platform truncated_dir = -1 :=
  (accessors_return_members sample_platform truncated_dir).2.2.2.2 (by decide)

/-! ## Marker files and tokens -/

theorem fscanf_s63_blank (content : List Char) (h : ∀ c ∈ content, isspace c = true) :
    fscanf_s63 content = (-1, []) := by
  have hd : content.dropWhile isspace = [] := List.dropWhile_eq_nil_iff.mpr h
  simp [fscanf_s63, hd]

/-- C11: for a marker file that holds no token (it is empty or all white space),
`get_controlfile` takes the unparseable-version exit: it returns the unprocessed
default struct, and its trace is the open and close of the marker file followed by the
warning, so no version number is computed and the control file is not opened. -/
theorem get_controlfile_blank_marker (p : Platform) (d : DataDir) (content : List Char)
    (hmarker : d.pg_version = some content)
    (hblank : ∀ c ∈ content, isspace c = true) :
    get_controlfile p d =
      { result :=
          { control_file_processed := false
            system_identifier := UNKNOWN_SYSTEM_IDENTIFIER
            state := DB_SHUTDOWNED
            checkPoint := InvalidXLogRecPtr
            data_checksum_version := to_uint32 (-1) }
        events := [.fopen_pg_version true, .fclose_pg_version,
          .log_warning .unable_to_determine_major_version] } := by
  have hret : (fscanf_s63 content).1 ≠ 1 := by
    rw [fscanf_s63_blank content hblank]
    decide
  exact get_controlfile_no_conversion p d content hmarker hret

theorem get_controlfile_blank_marker_witness :
    (get_controlfile sample_platform blank_dir).events =
        [.fopen_pg_version true, .fclose_pg_version,
          .log_warning .unable_to_determine_major_version] ∧
      (get_controlfile sample_platform { pg_version := some [], pg_control := none }).result
        = ⟨false, 0, DB_SHUTDOWNED, 0, 4294967295⟩ :=
  ⟨congrArg Run.events
      (get_controlfile_blank_marker sample_platform blank_dir "  \n".toList rfl (by decide)),
    congrArg Run.result
      (get_controlfile_blank_marker sample_platform _ [] rfl (by decide))⟩

/-! ## Two calls in a row -/

theorem acquire_release (s : Process) : s.acquire.release = s := by
  cases s
  simp [Process.acquire, Process.release]

theorem get_controlfile_call_full_table (p : Platform) (d : DataDir) (s : Process)
    (h : s.has_free_descriptor = false) :
    get_controlfile_call p d s =
      (⟨default_info, [.fopen_pg_version false, .log_warning .could_not_open_pg_version]⟩,
        s) := by
  simp [get_controlfile_call, h]

theorem get_controlfile_call_run (p : Platform) (d : DataDir) (s : Process)
    (h : s.has_free_descriptor = true) :
    (get_controlfile_call p d s).1 = get_controlfile p d := by
  cases hm : d.pg_version with
  | none => simp [get_controlfile_call, get_controlfile, h, hm]
  | some content =>
    by_cases ht : (fscanf_s63 content).1 = 1
    · by_cases hv : version_num p (fscanf_s63 content).2 < 90300
      · simp [get_controlfile_call, get_controlfile, h, hm, ht, hv]
      · cases hc : d.pg_control with
        | none => simp [get_controlfile_call, get_controlfile, h, hm, ht, hv, hc, acquire_release]
        | some rd =>
          by_cases hr :
            (read rd (palloc0 (expected_size p (version_num p (fscanf_s63 content).2)))
              (expected_size p (version_num p (fscanf_s63 content).2))).1
            = (expected_size p (version_num p (fscanf_s63 content).2) : Int)
          · simp [get_controlfile_call, get_controlfile, h, hm, ht, hv, hc, hr,
              acquire_release]
          · simp [get_controlfile_call, get_controlfile, h, hm, ht, hv, hc, hr,
              acquire_release]
    · simp [get_controlfile_call, get_controlfile, h, hm, ht]

theorem get_controlfile_call_state (p : Platform) (d : DataDir) (s : Process)
    (h : s.has_free_descriptor = true) :
    (get_controlfile_call p d s).2 = s ∨
      ((get_controlfile_call p d s).2 = s.acquire ∧
        (get_controlfile_call p d s).1.result = default_info) := by
  cases hm : d.pg_version with
  | none => simp [get_controlfile_call, h, hm]
  | some content =>
    by_cases ht : (fscanf_s63 content).1 = 1
    · by_cases hv : version_num p (fscanf_s63 content).2 < 90300
      · simp [get_controlfile_call, h, hm, ht, hv, acquire_release]
      · cases hc : d.pg_control with
        | none => simp [get_controlfile_call, h, hm, ht, hv, hc, acquire_release]
        | some rd =>
          by_cases hr :
            (read rd (palloc0 (expected_size p (version_num p (fscanf_s63 content).2)))
              (expected_size p (version_num p (fscanf_s63 content).2))).1
            = (expected_size p (version_num p (fscanf_s63 content).2) : Int)
          · simp [get_controlfile_call, h, hm, ht, hv, hc, hr, acquire_release]
          · simp [get_controlfile_call, h, hm, ht, hv, hc, hr, acquire_release]
    · simp [get_controlfile_call, h, hm, ht, acquire_release]

/-- C12: two consecutive calls of `get_controlfile` on the same directory, the second
starting in the process state the first one left, return equal `ControlFileInfo`
structs, that is equal `control_file_processed`, `system_identifier`, `state`,
`checkPoint` and `data_checksum_version`. This holds from every process state, also
when the first call leaves a descriptor open and the table is full for the second. -/
theorem consecutive_calls_return_equal_info (p : Platform) (d : DataDir) (s : Process) :
    (get_controlfile_call p d (get_controlfile_call p d s).2).1.result
      = (get_controlfile_call p d s).1.result := by
  cases h : s.has_free_descriptor with
  | false =>
    rw [get_controlfile_call_full_table p d s h, get_controlfile_call_full_table p d s h]
  | true =>
    rcases get_controlfile_call_state p d s h with hs | ⟨hs, hr⟩
    · rw [hs]
    · rw [hs, hr]
      cases h2 : s.acquire.has_free_descriptor with
      | false => rw [get_controlfile_call_full_table p d _ h2]
      | true =>
        rw [get_controlfile_call_run p d _ h2, ← get_controlfile_call_run p d s h, hr]

/-! ## Tokens without a number at the start -/

theorem strtol_of_not_starts_number (p : Platform) (s : List Char)
    (hs : ∀ c, s.head? = some c → isspace c = false)
    (h : starts_number s = false) : strtol p s = (0, 0) := by
  cases s with
  | nil => simp [strtol]
  | cons c t =>
    have hsp := hs c rfl
    simp only [starts_number, Bool.or_eq_false_iff, Bool.and_eq_false_iff] at h
    obtain ⟨hd, hsign⟩ := h
    by_cases hm : c = '-' ∨ c = '+'
    · have ht : List.takeWhile isdigit t = [] := by
        cases t with
        | nil => rfl
        | cons e u =>
          rcases hsign with hsign | hsign
          · rcases hm with hm | hm <;> simp [hm] at hsign
          · have : isdigit e = false := by simpa using hsign
            simp [List.takeWhile_cons, this]
      rcases hm with hm | hm <;> subst hm <;> simp [strtol, hsp, ht]
    · have hm1 : c ≠ '-' := fun e => hm (Or.inl e)
      have hm2 : c ≠ '+' := fun e => hm (Or.inr e)
      simp [strtol, hsp, hm1, hm2, hd]

/-- C13 (what the code does at the failing input): the token `.903` has no digit in
front of the `.`; `strtol` returns 0 for it with `endptr` at the start of the string,
the token check lets it through, the minor 903 is parsed all the same, the version
number is 90300, and the control file is opened, read with the layout of 9.3 and
returned as processed. -/
theorem dotted_token_reaches_decoder :
    fscanf_s63 ".903\n".toList = (1, ".903".toList) ∧
      strtol sample_platform ".903".toList = (0, 0) ∧
      version_num sample_platform ".903".toList = 90300 ∧
      get_controlfile sample_platform dotted_dir =
        ⟨⟨true, 7, 6, 9, 0⟩,
          [.fopen_pg_version true, .fclose_pg_version, .open_pg_control true,
            .read_pg_control 36, .close_pg_control]⟩ := by
  decide

/-- C14 (the claim fails): a complete record of version 9.6 that stores `0xFFFFFFFF` in
`data_checksum_version` is processed, and `get_data_checksum_version` returns -1 for
it, the same negative value it returns for an unprocessed result. -/
theorem processed_checksum_version_negative :
    (get_controlfile sample_platform all_ones_checksum_dir).result.control_file_processed
        = true ∧
      (get_controlfile sample_platform all_ones_checksum_dir).result.data_checksum_version
        = 4294967295 ∧
      get_data_checksum_version sample_platform all_ones_checksum_dir = -1 := by
  decide

/-- C14 (amended): for a fully read record of a supported version whose stored
`data_checksum_version` is below 2^31, the result is processed and
`get_data_checksum_version` returns the stored value, which is not negative. -/
theorem checksum_version_nonnegative_below_sign_bit (p : Platform) (d : DataDir)
    (content : List Char) (rd : Nat → ReadResult) (L : Layout) (buf : List Nat)
    (dcv : Nat)
    (hmarker : d.pg_version = some content)
    (htoken : (fscanf_s63 content).1 = 1)
    (hsel : selects p (version_num p (fscanf_s63 content).2) L)
    (hcontrol : d.pg_control = some rd)
    (hread : read rd (palloc0 L.size) L.size = ((L.size : Int), buf))
    (hdcv : member_bytes buf L.data_checksum_version 4 = value_bytes p 4 dcv)
    (hdcv_lt : dcv < 2 ^ 31) :
    (get_controlfile p d).result.control_file_processed = true ∧
      get_data_checksum_version p d = (dcv : Int) ∧
      0 ≤ get_data_checksum_version p d := by
  have hsize := selects_expected_size hsel
  have hfull := get_controlfile_read_full p d content rd hmarker htoken
    (selects_supported hsel) hcontrol (by rw [hsize, hread])
  have hload := load_of_member_bytes p buf L.data_checksum_version 4 dcv hdcv
    (by norm_num; omega)
  have hval : get_data_checksum_version p d = (dcv : Int) := by
    rw [get_data_checksum_version, hfull]
    simp only [selects_extract_members hsel, hsize, hread, copy_members, hload]
    exact to_int32_of_range _ (by omega) (by norm_num at hdcv_lt; omega)
  refine ⟨?_, hval, by rw [hval]; omega⟩
  rw [hfull]
  simp [extract_members_processed]

theorem checksum_version_nonnegative_below_sign_bit_witness :
    (get_controlfile sample_platform complete_dir).result.control_file_processed = true ∧
      get_data_checksum_version sample_platform complete_dir = 1 :=
  have h := checksum_version_nonnegative_below_sign_bit sample_platform complete_dir
    "9.6\n".toList (file_read sample_record) sample_platform.ControlFileData95
    sample_record 1 rfl (by decide) (by decide) rfl (by decide) (by decide) (by decide)
  ⟨h.1, h.2.1⟩

/-! ## Characters that `strtol` never reaches -/

theorem takeWhile_isdigit_append (l b : List Char)
    (hb : ∀ c, b.head? = some c → isdigit c = false) :
    (l ++ b).takeWhile isdigit = l.takeWhile isdigit := by
  induction l with
  | nil =>
    cases b with
    | nil => rfl
    | cons c t => simp [List.takeWhile_cons, hb c rfl]
  | cons x l ih =>
    simp only [List.cons_append, List.takeWhile_cons, ih]

theorem strtol_cons_of_not_space (p : Platform) (x : Char) (l : List Char)
    (hx : isspace x = false) :
    strtol p (x :: l) =
      strtol_after_sign p (decide (x = '-')) (if x = '-' ∨ x = '+' then 1 else 0)
        (if x = '-' ∨ x = '+' then l else x :: l) := by
  by_cases h1 : x = '-'
  · subst h1
    simp [strtol, strtol_after_sign, hx]
  · by_cases h2 : x = '+'
    · subst h2
      simp [strtol, strtol_after_sign, hx]
    · simp [strtol, strtol_after_sign, hx, h1, h2]

theorem strtol_after_sign_append (p : Platform) (neg : Bool) (k : Nat) (l b : List Char)
    (hb : ∀ c, b.head? = some c → isdigit c = false) :
    strtol_after_sign p neg k (l ++ b) = strtol_after_sign p neg k l := by
  simp only [strtol_after_sign, takeWhile_isdigit_append l b hb]

theorem strtol_after_sign_le (p : Platform) (neg : Bool) (k : Nat) (l : List Char) :
    (strtol_after_sign p neg k l).2 ≤ k + l.length := by
  have hd := (List.takeWhile_sublist isdigit (l := l)).length_le
  unfold strtol_after_sign
  split_ifs <;> simp only <;> omega

theorem strtol_endptr_le (p : Platform) (s : List Char)
    (hs : ∀ c ∈ s, isspace c = false) : (strtol p s).2 ≤ s.length := by
  cases s with
  | nil => simp [strtol]
  | cons x l =>
    rw [strtol_cons_of_not_space p x l (hs x (List.mem_cons_self _ _))]
    split_ifs
    · have := strtol_after_sign_le p (decide (x = '-')) 1 l
      simp only [List.length_cons]
      omega
    · have := strtol_after_sign_le p (decide (x = '-')) 0 (x :: l)
      simp only [List.length_cons] at this ⊢
      omega

theorem strtol_append_inert (p : Platform) (a b : List Char)
    (ha : ∀ c ∈ a, isspace c = false)
    (hb : ∀ c, b.head? = some c →
      isdigit c = false ∧ isspace c = false ∧ c ≠ '-' ∧ c ≠ '+') :
    strtol p (a ++ b) = strtol p a := by
  have hdig : ∀ c, b.head? = some c → isdigit c = false := fun c hc => (hb c hc).1
  cases a with
  | nil =>
    have h0 : strtol p [] = (0, 0) := by simp [strtol]
    rw [List.nil_append, h0]
    apply strtol_of_not_starts_number p b (fun c hc => (hb c hc).2.1)
    cases b with
    | nil => rfl
    | cons c t =>
      obtain ⟨hd, _, hm, hp⟩ := hb c rfl
      simp [starts_number, hd, hm, hp]
  | cons x a =>
    have hx : isspace x = false := ha x (List.mem_cons_self _ _)
    rw [List.cons_append, strtol_cons_of_not_space p x (a ++ b) hx,
      strtol_cons_of_not_space p x a hx]
    split_ifs
    · exact strtol_after_sign_append p _ _ a b hdig
    · exact strtol_after_sign_append p _ _ (x :: a) b hdig

theorem head_dropWhile_not (q : Char → Bool) (l : List Char) (c : Char)
    (h : (l.dropWhile q).head? = some c) : q c = false := by
  induction l with
  | nil => simp at h
  | cons x l ih =>
    by_cases hx : q x = true
    · simp only [List.dropWhile_cons, hx, if_true] at h
      exact ih h
    · simp only [List.dropWhile_cons, hx, Bool.false_eq_true, if_false, List.head?_cons,
        Option.some.injEq] at h
      subst h
      simpa using hx

theorem version_num_append_inert (p : Platform) (a b : List Char)
    (ha : ∀ c ∈ a, isspace c = false)
    (hb : ∀ c, b.head? = some c →
      isdigit c = false ∧ isspace c = false ∧ c ≠ '-' ∧ c ≠ '+' ∧ c ≠ '.') :
    version_num p (a ++ b) = version_num p a := by
  have hb2 : ∀ c, b.head? = some c →
      isdigit c = false ∧ isspace c = false ∧ c ≠ '-' ∧ c ≠ '+' :=
    fun c hc => ⟨(hb c hc).1, (hb c hc).2.1, (hb c hc).2.2.1, (hb c hc).2.2.2.1⟩
  have hle := strtol_endptr_le p a ha
  simp only [version_num, strtol_append_inert p a b ha hb2]
  by_cases hlt : (strtol p a).2 < a.length
  · rw [List.getElem?_append_left hlt]
    have hdrop : List.drop ((strtol p a).2 + 1) (a ++ b)
        = List.drop ((strtol p a).2 + 1) a ++ b :=
      List.drop_append_of_le_length (by omega)
    rw [hdrop, strtol_append_inert p _ b
      (fun c hc => ha c (List.mem_of_mem_drop hc)) hb2]
  · have he : (strtol p a).2 = a.length := by omega
    have h1 : (a ++ b)[(strtol p a).2]? ≠ some '.' := by
      rw [he]
      cases b with
      | nil => simp
      | cons c t =>
        rw [getElem_at_length_append_cons]
        have := (hb c rfl).2.2.2.2
        simpa using this
    have h2 : a[(strtol p a).2]? ≠ some '.' := by
      rw [he]
      simp
    simp only [h1, h2, if_false]

theorem nul_is_inert (c : Char) (h : c.toNat = 0) :
    isdigit c = false ∧ isspace c = false ∧ c ≠ '-' ∧ c ≠ '+' ∧ c ≠ '.' := by
  refine ⟨by simp [isdigit, h], by simp [isspace, h], ?_, ?_, ?_⟩ <;>
    (rintro rfl; revert h; decide)

theorem version_num_c_string (p : Platform) (t : List Char)
    (ht : ∀ c ∈ t, isspace c = false) :
    version_num p (c_string t) = version_num p t := by
  have hsplit : t = c_string t ++ t.dropWhile (fun c => decide (c.toNat ≠ 0)) := by
    unfold c_string
    exact (List.takeWhile_append_dropWhile _ t).symm
  have hinert := version_num_append_inert p (c_string t)
    (t.dropWhile (fun c => decide (c.toNat ≠ 0)))
    (fun c hc => ht c ((List.takeWhile_sublist _).mem hc))
    (fun c hc => nul_is_inert c (by
      have := head_dropWhile_not _ t c hc
      simpa using this))
  rw [← hsplit] at hinert
  exact hinert.symm

/-! ## The token `fscanf` stores -/

theorem dropWhile_append_of_all (q : Char → Bool) (ws l : List Char)
    (h : ∀ c ∈ ws, q c = true) : (ws ++ l).dropWhile q = l.dropWhile q := by
  induction ws with
  | nil => rfl
  | cons x ws ih =>
    have hx : q x = true := h x (List.mem_cons_self _ _)
    simp only [List.cons_append, List.dropWhile_cons, hx, if_true]
    exact ih (fun c hc => h c (List.mem_cons_of_mem _ hc))

theorem fscanf_s63_of_run (ws run rest : List Char)
    (hws : ∀ c ∈ ws, isspace c = true)
    (hrun : ∀ c ∈ run, isspace c = false)
    (hne : run ≠ [])
    (hrest : ∀ c, rest.head? = some c → isspace c = true) :
    fscanf_s63 (ws ++ run ++ rest) = (1, c_string (run.take 63)) := by
  obtain ⟨x, r, rfl⟩ := List.exists_cons_of_ne_nil hne
  have hx : isspace x = false := hrun x (List.mem_cons_self _ _)
  have hdrop : (ws ++ (x :: r) ++ rest).dropWhile isspace = (x :: r) ++ rest := by
    rw [List.append_assoc, dropWhile_append_of_all isspace ws _ hws]
    simp [List.dropWhile_cons, hx]
  have htake : ((x :: r) ++ rest).takeWhile (fun c => !isspace c) = x :: r := by
    rw [List.takeWhile_append_of_pos (fun c hc => by simp [hrun c hc])]
    cases rest with
    | nil => simp
    | cons c t => simp [List.takeWhile_cons, hrest c rfl]
  simp only [fscanf_s63, hdrop, htake]
  simp

/-- C15: when the marker file is white space `ws`, then a non-empty run `run` of
characters that are not white space, then `rest` (empty or starting with white space),
the token stored is the first 63 characters of `run`, ending before a NUL if it has
one, and the version number is the one of those 63 characters. A second file whose run
has the same first 63 characters resolves to the same version number, whatever differs
behind the 63rd character, behind the run, or in the leading white space. -/
theorem version_num_from_first_run (p : Platform) (ws run rest ws2 run2 rest2 : List Char)
    (hws : ∀ c ∈ ws, isspace c = true)
    (hrun : ∀ c ∈ run, isspace c = false)
    (hne : run ≠ [])
    (hrest : ∀ c, rest.head? = some c → isspace c = true)
    (hws2 : ∀ c ∈ ws2, isspace c = true)
    (hrun2 : ∀ c ∈ run2, isspace c = false)
    (hne2 : run2 ≠ [])
    (hrest2 : ∀ c, rest2.head? = some c → isspace c = true)
    (hsame : run2.take 63 = run.take 63) :
    (fscanf_s63 (ws ++ run ++ rest)).1 = 1 ∧
      (fscanf_s63 (ws ++ run ++ rest)).2 = c_string (run.take 63) ∧
      version_num p (fscanf_s63 (ws ++ run ++ rest)).2 = version_num p (run.take 63) ∧
      version_num p (fscanf_s63 (ws2 ++ run2 ++ rest2)).2
        = version_num p (fscanf_s63 (ws ++ run ++ rest)).2 := by
  rw [fscanf_s63_of_run ws run rest hws hrun hne hrest,
    fscanf_s63_of_run ws2 run2 rest2 hws2 hrun2 hne2 hrest2, hsame]
  exact ⟨rfl, rfl,
    version_num_c_string p _ (fun c hc => hrun c (List.mem_of_mem_take hc)), rfl⟩

theorem version_num_from_first_run_witness :
    version_num sample_platform
        (fscanf_s63 (" \n".toList ++ ("9.6".toList ++ List.replicate 60 'x' ++ "77".toList)
          ++ " 12".toList)).2
      = version_num sample_platform ("9.6".toList ++ List.replicate 60 'x') ∧
    version_num sample_platform
        (fscanf_s63 ([] ++ ("9.6".toList ++ List.replicate 60 'x' ++ "1234".toList) ++ [])).2
      = version_num sample_platform
        (fscanf_s63 (" \n".toList ++ ("9.6".toList ++ List.replicate 60 'x' ++ "77".toList)
          ++ " 12".toList)).2 :=
  have h := version_num_from_first_run sample_platform " \n".toList
    ("9.6".toList ++ List.replicate 60 'x' ++ "77".toList) " 12".toList
    [] ("9.6".toList ++ List.replicate 60 'x' ++ "1234".toList) []
    (by decide) (by decide) (by decide) (by decide) (by decide) (by decide) (by decide)
    (by decide) (by decide)
  ⟨h.2.2.1, h.2.2.2⟩

/-! ## Suffixes behind the number -/

theorem strtol_digit_run (p : Platform) (M rest : List Char)
    (hM : ∀ c ∈ M, isdigit c = true) (hne : M ≠ [])
    (hrest : ∀ c, rest.head? = some c → isdigit c = false) :
    strtol p (M ++ rest) = (clamp_long p (decimal M), M.length) := by
  obtain ⟨x, t, rfl⟩ := List.exists_cons_of_ne_nil hne
  have hx : isdigit x = true := hM x (List.mem_cons_self _ _)
  obtain ⟨hm, hp⟩ := isdigit_not_sign hx
  have hns : ¬(x = '-' ∨ x = '+') := fun h => h.elim hm hp
  have htw : List.takeWhile isdigit (x :: t) = x :: t :=
    List.takeWhile_eq_self_iff.mpr hM
  rw [List.cons_append, strtol_cons_of_not_space p x (t ++ rest) (isdigit_not_isspace hx),
    if_neg hns, if_neg hns, ← List.cons_append,
    strtol_after_sign_append p _ 0 (x :: t) rest hrest]
  simp [strtol_after_sign, htw, hm, digits_value_eq_decimal, clamp_long]

theorem getElem_at_length_append (M s : List Char) : (M ++ s)[M.length]? = s.head? := by
  cases s with
  | nil => simp
  | cons c t => rw [getElem_at_length_append_cons]; rfl

/-- C16: characters behind the leading `<major>[.<minor>]` are ignored. For non-empty
digit strings `M` and `N`, the tokens `M.N` and `M.N` followed by a suffix that does not
start with a digit resolve to the same version number, and so do `M` and `M` followed
by a suffix that starts neither with a digit nor with `.`. -/
theorem version_num_ignores_suffix (p : Platform) (M N s : List Char)
    (hM : ∀ c ∈ M, isdigit c = true) (hMne : M ≠ [])
    (hN : ∀ c ∈ N, isdigit c = true) (hNne : N ≠ []) :
    ((∀ c, s.head? = some c → isdigit c = false) →
        version_num p ((M ++ '.' :: N) ++ s) = version_num p (M ++ '.' :: N)) ∧
      ((∀ c, s.head? = some c → isdigit c = false ∧ c ≠ '.') →
        version_num p (M ++ s) = version_num p M) := by
  have hdot : ∀ (l : List Char) (c : Char), ('.' :: l).head? = some c → isdigit c = false := by
    intro l c hc
    simp only [List.head?_cons, Option.some.injEq] at hc
    subst hc
    decide
  have hnil : ∀ c : Char, ([] : List Char).head? = some c → isdigit c = false := by
    intro c hc
    simp at hc
  have hM0 : strtol p M = (clamp_long p (decimal M), M.length) := by
    simpa using strtol_digit_run p M [] hM hMne hnil
  have hN0 : strtol p N = (clamp_long p (decimal N), N.length) := by
    simpa using strtol_digit_run p N [] hN hNne hnil
  constructor
  · intro hs
    have e1 := strtol_digit_run p M ('.' :: (N ++ s)) hM hMne (hdot _)
    have e2 := strtol_digit_run p M ('.' :: N) hM hMne (hdot _)
    have e3 := strtol_digit_run p N s hN hNne hs
    rw [List.append_assoc, List.cons_append]
    simp only [version_num, e1, e2, e3, hN0, getElem_at_length_append_cons,
      drop_length_succ_append_cons]
  · intro hs
    have e1 := strtol_digit_run p M s hM hMne (fun c hc => (hs c hc).1)
    have h1 : (M ++ s)[M.length]? ≠ some '.' := by
      rw [getElem_at_length_append]
      intro h
      exact (hs '.' h).2 rfl
    have h2 : M[M.length]? ≠ some '.' := by simp
    simp only [version_num, e1, hM0, h1, h2, if_false]

theorem version_num_ignores_suffix_witness :
    version_num sample_platform "9.6.3".toList = version_num sample_platform "9.6".toList ∧
      version_num sample_platform "9.6beta".toList
        = version_num sample_platform "9.6".toList ∧
      version_num sample_platform "12beta".toList = version_num sample_platform "12".toList :=
  ⟨(version_num_ignores_suffix sample_platform "9".toList "6".toList ".3".toList
      (by decide) (by decide) (by decide) (by decide)).1 (by decide),
    (version_num_ignores_suffix sample_platform "9".toList "6".toList "beta".toList
      (by decide) (by decide) (by decide) (by decide)).1 (by decide),
    (version_num_ignores_suffix sample_platform "12".toList "0".toList "beta".toList
      (by decide) (by decide) (by decide) (by decide)).2 (by decide)⟩

/-! ## Order of version numbers -/

theorem version_num_eq_of_parts (p : Platform) (s : List Char) :
    version_num p s =
      version_num_of_parts (strtol p s).1
        (if s[(strtol p s).2]? = some '.' then (strtol p (s.drop ((strtol p s).2 + 1))).1
          else 0) := rfl

end ControlData
